import Mathlib

/-!
Verification of the xorshift64* pseudo-random generator and the benchmark
workload builder from `generate_data.py`.

The Python code is shallowly embedded: machine integers become `Nat` with
explicit reduction modulo `2 ^ 64` exactly where the source masks with
`0xFFFFFFFFFFFFFFFF` (for non-negative integers the mask and the modulus
agree), the mutable generator object becomes explicit state passing, and
Python lists become `List`.  The float returned by `next_f64` is modelled as
the exact rational `(v >>> 11) / 2 ^ 53`: since `v >>> 11 < 2 ^ 53`, the IEEE
double produced by the source (`float(x >> 11) * (1.0 / 2 ** 53)`) represents
this rational exactly, and comparing it against the exactly representable
threshold `0.50` coincides with the rational comparison.

The generator structure carries two ghost counters (`u64_calls`,
`usize_calls`) counting the calls made to `next_u64` and `next_usize`; they
never influence any produced value and exist only so that draw-count
properties can be stated.

`generate_data` in the source divides by the global `N` when it builds miss
keys, so Python would raise `ZeroDivisionError` for `N = 0`; the embedding is
total, and every theorem about the builder therefore assumes `0 < N`, the
regime in which the embedding is faithful (the shipped configuration has
`N = 1000000`).
-/

/-- State transition of `next_u64` (lines 16-20 of the source): the three
xorshift steps are computed on unbounded integers and the result is masked to
64 bits only once, at the end, exactly as the Python code does. -/
def stateStep (s : Nat) : Nat :=
  let x1 := s ^^^ s >>> 12
  let x2 := x1 ^^^ x1 <<< 25
  let x3 := x2 ^^^ x2 >>> 27
  x3 % 2 ^ 64

/-- Modelled from the spec: the xorshift64 recurrence with every step reduced
modulo `2 ^ 64` ("all operations on exactly 64 bits, with overflow/carry bits
discarded, i.e. modulo 2^64 at every step").  Kept separate from `stateStep`
so the two can be compared. -/
def stateStepPerStepReduced (s : Nat) : Nat :=
  let x1 := (s ^^^ s >>> 12) % 2 ^ 64
  let x2 := (x1 ^^^ x1 <<< 25) % 2 ^ 64
  let x3 := (x2 ^^^ x2 >>> 27) % 2 ^ 64
  x3

/-- The xorshift64* generator of `generate_data.py`.  `state` is the Python
attribute `self.state`; the two `*_calls` fields are ghost instrumentation
counting generator calls and never influence any produced value. -/
structure XorShift64Star where
  state : Nat
  u64_calls : Nat
  usize_calls : Nat
deriving Repr, DecidableEq

/-- Constructor (`__init__`): a zero seed is coerced to 1, any other seed is
stored verbatim. -/
def XorShift64Star.new (seed : Nat) : XorShift64Star :=
  { state := if seed ≠ 0 then seed else 1, u64_calls := 0, usize_calls := 0 }

/-- `next_u64`: advance the state by `stateStep` and return the new state
multiplied by `0x2545F4914F6CDD1D`, truncated to 64 bits.  The multiplied
value is not stored back into the state. -/
def XorShift64Star.next_u64 (g : XorShift64Star) : Nat × XorShift64Star :=
  let x := stateStep g.state
  ((x * 0x2545F4914F6CDD1D) % 2 ^ 64,
   { state := x, u64_calls := g.u64_calls + 1, usize_calls := g.usize_calls })

/-- `next_usize`: for `bound <= 1` return 0 without touching the generator
state (the ghost `usize_calls` counter still records the call); otherwise
return `next_u64() % bound`. -/
def XorShift64Star.next_usize (g : XorShift64Star) (bound : Nat) : Nat × XorShift64Star :=
  if bound ≤ 1 then
    (0, { g with usize_calls := g.usize_calls + 1 })
  else
    match g.next_u64 with
    | (v, g1) => (v % bound, { g1 with usize_calls := g1.usize_calls + 1 })

/-- `next_f64`: the exact rational value of the double
`float(next_u64() >> 11) * (1.0 / 2 ** 53)`. -/
def XorShift64Star.next_f64 (g : XorShift64Star) : ℚ × XorShift64Star :=
  match g.next_u64 with
  | (v, g1) => (((v >>> 11 : Nat) : ℚ) / 2 ^ 53, g1)

/-- `rand_char`: `chr(ord('a') + next_u64() % 26)`. -/
def XorShift64Star.rand_char (g : XorShift64Star) : Char × XorShift64Star :=
  match g.next_u64 with
  | (v, g1) => (Char.ofNat (97 + v % 26), g1)

/-- Simultaneous swap `l[i], l[j] = l[j], l[i]` on a list; out-of-range
indices (which never occur in the shuffle) leave the list unchanged. -/
def listSwap (l : List α) (i j : Nat) : List α :=
  match l[i]?, l[j]? with
  | some x, some y => (l.set i y).set j x
  | _, _ => l

/-- Body of the Fisher-Yates loop: the argument `i` counts the remaining
iterations, so the element index touched first is `l.length - 1` and the last
one is `1`, with `j = next_usize(index + 1)` at each step. -/
def shuffleAux (g : XorShift64Star) (l : List α) : Nat → List α × XorShift64Star
  | 0 => (l, g)
  | i + 1 =>
    match g.next_usize (i + 2) with
    | (j, g1) => shuffleAux g1 (listSwap l (i + 1) j) i

/-- `shuffle`: in-place Fisher-Yates, iterating the index from `length - 1`
down to `1`. -/
def XorShift64Star.shuffle (g : XorShift64Star) (l : List α) : List α × XorShift64Star :=
  shuffleAux g l (l.length - 1)

/-- First `k` outputs of repeated `next_u64` calls. -/
def u64Stream (g : XorShift64Star) : Nat → List Nat
  | 0 => []
  | k + 1 =>
    match g.next_u64 with
    | (v, g1) => v :: u64Stream g1 k

/-- The configuration constants of lines 43-50 of the source, gathered into a
record so the builder can be analysed for arbitrary values; the source fixes
`N = 1000000`, `SEED = 0xDEADBEEFCAFEBABE`, `UPDATE_COUNT = 500000`,
`REMOVE_COUNT = 750000`, `REMOVE_HITS = 500000`, `REMOVE_MISSES = 250000`,
`SEARCH_COUNT = 1000000`, `SEARCH_HIT_RATE = 0.50`. -/
structure Config where
  N : Nat
  SEED : Nat
  UPDATE_COUNT : Nat
  REMOVE_COUNT : Nat
  REMOVE_HITS : Nat
  REMOVE_MISSES : Nat
  SEARCH_COUNT : Nat
  SEARCH_HIT_RATE : ℚ

/-- The shipped configuration of the source file. -/
def defaultConfig : Config :=
  { N := 1000000
    SEED := 0xDEADBEEFCAFEBABE
    UPDATE_COUNT := 500000
    REMOVE_COUNT := 750000
    REMOVE_HITS := 500000
    REMOVE_MISSES := 250000
    SEARCH_COUNT := 1000000
    SEARCH_HIT_RATE := 1 / 2 }

/-- The dictionary returned by `generate_data` (lines 107-122). -/
structure Workload where
  insert_keys : List Nat
  insert_data : List Char
  update_indices : List Nat
  update_data : List Char
  remove_is_hit : List Bool
  remove_indices : List Nat
  remove_miss_keys : List Nat
  search_is_hit : List Bool
  search_indices : List Nat
  search_miss_keys : List Nat
  n : Nat
  updates : Nat
  removes : Nat
  searches : Nat
deriving Repr, DecidableEq

/-- `[rng.rand_char() for _ in range(c)]`. -/
def drawChars (g : XorShift64Star) : Nat → List Char × XorShift64Star
  | 0 => ([], g)
  | c + 1 =>
    match g.rand_char with
    | (ch, g1) =>
      match drawChars g1 c with
      | (cs, g2) => (ch :: cs, g2)

/-- `[rng.next_usize(n) for _ in range(c)]`. -/
def drawUsizes (g : XorShift64Star) (n : Nat) : Nat → List Nat × XorShift64Star
  | 0 => ([], g)
  | c + 1 =>
    match g.next_usize n with
    | (v, g1) =>
      match drawUsizes g1 n c with
      | (vs, g2) => (v :: vs, g2)

/-- The `REMOVE_HITS` loop (lines 78-81): each iteration records the flag
`True`, a hit index `next_usize(N)` and the padding value 0 in the miss-key
column. -/
def removeHitsLoop (g : XorShift64Star) (n : Nat) :
    Nat → (List Bool × List Nat × List Nat) × XorShift64Star
  | 0 => (([], [], []), g)
  | c + 1 =>
    match g.next_usize n with
    | (idx, g1) =>
      match removeHitsLoop g1 n c with
      | ((fs, idxs, ms), g2) => ((true :: fs, idx :: idxs, 0 :: ms), g2)

/-- The `REMOVE_MISSES` loop (lines 83-88): each iteration records the flag
`False`, the padding value 0 in the index column and the miss key
`N + next_u64() % N + 1`. -/
def removeMissesLoop (g : XorShift64Star) (n : Nat) :
    Nat → (List Bool × List Nat × List Nat) × XorShift64Star
  | 0 => (([], [], []), g)
  | c + 1 =>
    match g.next_u64 with
    | (v, g1) =>
      match removeMissesLoop g1 n c with
      | ((fs, idxs, ms), g2) => ((false :: fs, 0 :: idxs, (n + v % n + 1) :: ms), g2)

/-- The `SEARCH_COUNT` loop (lines 95-105): each iteration draws `next_f64()`
and compares it against the hit rate; a hit records `next_usize(N)` and the
padding 0, a miss records the padding 0 and the key `N + next_u64() % N + 1`. -/
def searchLoop (g : XorShift64Star) (n : Nat) (rate : ℚ) :
    Nat → (List Bool × List Nat × List Nat) × XorShift64Star
  | 0 => (([], [], []), g)
  | c + 1 =>
    match g.next_f64 with
    | (f, g1) =>
      if f < rate then
        match g1.next_usize n with
        | (idx, g2) =>
          match searchLoop g2 n rate c with
          | ((fs, idxs, ms), g3) => ((true :: fs, idx :: idxs, 0 :: ms), g3)
      else
        match g1.next_u64 with
        | (v, g2) =>
          match searchLoop g2 n rate c with
          | ((fs, idxs, ms), g3) => ((false :: fs, 0 :: idxs, (n + v % n + 1) :: ms), g3)

/-- The builder `generate_data` (lines 52-122), with the global constants
taken from `cfg`.  The call order mirrors the source exactly: insert payload
characters, shuffle of the side permutation array `order`, re-indexing of the
identity key list through `order`, update indices, update payload characters,
the remove-hit block, the remove-miss block, and the search loop. -/
def generate_data (cfg : Config) : Workload :=
  let g0 := XorShift64Star.new cfg.SEED
  let insert_keys := List.range cfg.N
  match drawChars g0 cfg.N with
  | (insert_data, g1) =>
    match g1.shuffle (List.range cfg.N) with
    | (order, g2) =>
      let shuffled_keys :=
        (List.range cfg.N).map fun i => insert_keys.getD (order.getD i 0) 0
      match drawUsizes g2 cfg.N cfg.UPDATE_COUNT with
      | (update_indices, g3) =>
        match drawChars g3 cfg.UPDATE_COUNT with
        | (update_data, g4) =>
          match removeHitsLoop g4 cfg.N cfg.REMOVE_HITS with
          | ((rh_fs, rh_idxs, rh_ms), g5) =>
            match removeMissesLoop g5 cfg.N cfg.REMOVE_MISSES with
            | ((rm_fs, rm_idxs, rm_ms), g6) =>
              match searchLoop g6 cfg.N cfg.SEARCH_HIT_RATE cfg.SEARCH_COUNT with
              | ((s_fs, s_idxs, s_ms), _g7) =>
                { insert_keys := shuffled_keys
                  insert_data := insert_data
                  update_indices := update_indices
                  update_data := update_data
                  remove_is_hit := rh_fs ++ rm_fs
                  remove_indices := rh_idxs ++ rm_idxs
                  remove_miss_keys := rh_ms ++ rm_ms
                  search_is_hit := s_fs
                  search_indices := s_idxs
                  search_miss_keys := s_ms
                  n := cfg.N
                  updates := cfg.UPDATE_COUNT
                  removes := cfg.REMOVE_COUNT
                  searches := cfg.SEARCH_COUNT }

/-- One remove-hit iteration, as a transformation of the generator alone. -/
def removeHitStep (n : Nat) (g : XorShift64Star) : XorShift64Star :=
  (g.next_usize n).2

/-- One remove-miss (or search-miss key) iteration, as a transformation of
the generator alone. -/
def u64Step (g : XorShift64Star) : XorShift64Star :=
  (g.next_u64).2

/-- One search iteration, as a transformation of the generator alone. -/
def searchStep (n : Nat) (rate : ℚ) (g : XorShift64Star) : XorShift64Star :=
  match g.next_f64 with
  | (f, g1) => if f < rate then (g1.next_usize n).2 else (g1.next_u64).2

/-- Apply a GF(2)-linear map, given by the list of its columns (column `i` is
the image of `2 ^ i`), to a natural number: XOR together the columns at the
set bits of the argument. -/
def linApply : List Nat → Nat → Nat
  | [], _ => 0
  | c :: cs, s => (if s.testBit 0 then c else 0) ^^^ linApply cs (s / 2)

/-- Columns of the GF(2)-inverse of `stateStep` on 64-bit values, computed by
Gaussian elimination; `invCols_stateStep` below verifies the inverse law on
the 64 basis vectors. -/
def invCols : List Nat :=
  [4339821030377962262, 8679642060755924525, 17359284121511849050,
   16483580329960340099, 14741038958435555121, 11255956232559561812,
   90093990432244105, 180187980864488210, 4123736214018768178,
   8247472428037536357, 16494944856075072715, 14754901515688135584,
   11283681622011852151, 4341241800305821912, 8682483600611643825,
   17364967201223287650, 16494946504939758834, 14754907011903777746,
   11283692615516616083, 4341228611535292688, 8682457223070585377,
   17364914446141170754, 16494840977608239794, 14754555254103734099,
   11282988824969399440, 4339821030377962263, 8679642060755924527,
   14759057754588469064, 11291993824328649894, 4357831030169942907,
   8715662060339885815, 14831097758049523448, 11436073822667116486,
   4069671029199093179, 8139342058398186359, 15984300711836012025,
   13742479970833775045, 8682483050721595837, 17364966101443191674,
   16494944306453439682, 14754902614931401650, 11283683821571863891,
   4341246199425845392, 8682492398851690785, 17364984797703381570,
   16494981680724272818, 14754836660335800146, 11283551912378563731,
   4340947205263383313, 8681894410526766627, 17363788821053533254,
   16492589727432964795, 14759057754454284097, 11291993824597019828,
   18018797764247625, 36037595528495250, 4411896212842658354,
   8823792425685316709, 17647584851370633418, 17060181781090071459,
   15894241877870691696, 13562362312023517398, 4702906218079635597,
   9405812436159271195]

/-- The GF(2)-inverse of `stateStep` on 64-bit values. -/
def stateStepInv (y : Nat) : Nat :=
  linApply invCols y

/-- A small consistent configuration used to witness the builder theorems on
a kernel-evaluable instance. -/
def smallCfg : Config :=
  { N := 5
    SEED := 12345
    UPDATE_COUNT := 3
    REMOVE_COUNT := 4
    REMOVE_HITS := 2
    REMOVE_MISSES := 2
    SEARCH_COUNT := 4
    SEARCH_HIT_RATE := 1 / 2 }

/-- A configuration violating `REMOVE_HITS + REMOVE_MISSES = REMOVE_COUNT`,
used to exhibit that the builder performs no validation. -/
def badCfg : Config :=
  { N := 3
    SEED := 42
    UPDATE_COUNT := 1
    REMOVE_COUNT := 5
    REMOVE_HITS := 2
    REMOVE_MISSES := 1
    SEARCH_COUNT := 1
    SEARCH_HIT_RATE := 1 / 2 }

/-- Generator after the insert-payload draws (line 60). -/
def genAfterInsertData (cfg : Config) : XorShift64Star :=
  (drawChars (XorShift64Star.new cfg.SEED) cfg.N).2

/-- The shuffled side permutation array `order` (lines 63-64). -/
def orderList (cfg : Config) : List Nat :=
  ((genAfterInsertData cfg).shuffle (List.range cfg.N)).1

/-- Generator after the shuffle of `order` (line 64). -/
def genAfterShuffle (cfg : Config) : XorShift64Star :=
  ((genAfterInsertData cfg).shuffle (List.range cfg.N)).2

/-- Generator after the update-index draws (line 69). -/
def genAfterUpdateIdx (cfg : Config) : XorShift64Star :=
  (drawUsizes (genAfterShuffle cfg) cfg.N cfg.UPDATE_COUNT).2

/-- Generator after the update-payload draws (line 70). -/
def genAfterUpdateData (cfg : Config) : XorShift64Star :=
  (drawChars (genAfterUpdateIdx cfg) cfg.UPDATE_COUNT).2

/-- Generator after the remove-hit block (lines 78-81). -/
def genAfterRemoveHits (cfg : Config) : XorShift64Star :=
  (removeHitsLoop (genAfterUpdateData cfg) cfg.N cfg.REMOVE_HITS).2

/-- Generator after the remove-miss block (lines 83-88). -/
def genAfterRemoveMisses (cfg : Config) : XorShift64Star :=
  (removeMissesLoop (genAfterRemoveHits cfg) cfg.N cfg.REMOVE_MISSES).2

/-! ### XOR-linearity of the state transition -/

theorem xor_shiftRight_distrib (a b k : Nat) :
    (a ^^^ b) >>> k = a >>> k ^^^ b >>> k := by
  apply Nat.eq_of_testBit_eq
  intro i
  simp

theorem xor_shiftLeft_distrib (a b k : Nat) :
    (a ^^^ b) <<< k = a <<< k ^^^ b <<< k := by
  apply Nat.eq_of_testBit_eq
  intro i
  by_cases h : k ≤ i <;> simp [h, ge_iff_le]

theorem xor_mod_two_pow_distrib (a b n : Nat) :
    (a ^^^ b) % 2 ^ n = a % 2 ^ n ^^^ b % 2 ^ n := by
  apply Nat.eq_of_testBit_eq
  intro i
  by_cases h : i < n <;> simp [h]

theorem xor_xor_perm (a b c d : Nat) :
    (a ^^^ b) ^^^ (c ^^^ d) = (a ^^^ c) ^^^ (b ^^^ d) := by
  apply Nat.eq_of_testBit_eq
  intro i
  simp only [Nat.testBit_xor]
  cases a.testBit i <;> cases b.testBit i <;> cases c.testBit i <;> cases d.testBit i <;> rfl

theorem xor_sr_step (k a b : Nat) :
    (a ^^^ b) ^^^ (a ^^^ b) >>> k = (a ^^^ a >>> k) ^^^ (b ^^^ b >>> k) := by
  rw [xor_shiftRight_distrib]
  exact xor_xor_perm a b (a >>> k) (b >>> k)

theorem xor_sl_step (k a b : Nat) :
    (a ^^^ b) ^^^ (a ^^^ b) <<< k = (a ^^^ a <<< k) ^^^ (b ^^^ b <<< k) := by
  rw [xor_shiftLeft_distrib]
  exact xor_xor_perm a b (a <<< k) (b <<< k)

theorem stateStep_eq (s : Nat) :
    stateStep s =
      (((s ^^^ s >>> 12) ^^^ (s ^^^ s >>> 12) <<< 25) ^^^
        ((s ^^^ s >>> 12) ^^^ (s ^^^ s >>> 12) <<< 25) >>> 27) % 2 ^ 64 :=
  rfl

theorem stateStep_xor (a b : Nat) :
    stateStep (a ^^^ b) = stateStep a ^^^ stateStep b := by
  rw [stateStep_eq (a ^^^ b), stateStep_eq a, stateStep_eq b]
  rw [xor_sr_step 12 a b]
  generalize a ^^^ a >>> 12 = u
  generalize b ^^^ b >>> 12 = v
  rw [xor_sl_step 25 u v]
  generalize u ^^^ u <<< 25 = p
  generalize v ^^^ v <<< 25 = q
  rw [xor_sr_step 27 p q]
  exact xor_mod_two_pow_distrib _ _ 64

theorem stateStep_lt (s : Nat) : stateStep s < 2 ^ 64 := by
  rw [stateStep_eq]
  exact Nat.mod_lt _ (by norm_num)

theorem linApply_xor (cols : List Nat) (a b : Nat) :
    linApply cols (a ^^^ b) = linApply cols a ^^^ linApply cols b := by
  induction cols generalizing a b with
  | nil => simp [linApply]
  | cons c cs ih =>
    simp only [linApply, Nat.testBit_xor, Nat.xor_div_two, ih]
    rw [xor_xor_perm]
    congr 1
    cases a.testBit 0 <;> cases b.testBit 0 <;> simp

theorem two_mul_xor_distrib (a b : Nat) : 2 * (a ^^^ b) = 2 * a ^^^ 2 * b := by
  have h := xor_shiftLeft_distrib a b 1
  simpa [Nat.shiftLeft_eq, Nat.mul_comm] using h

theorem one_xor_two_mul (t : Nat) : 1 ^^^ 2 * t = 2 * t + 1 := by
  apply Nat.eq_of_testBit_eq
  intro i
  cases i with
  | zero =>
    have h1 : 2 * t % 2 = 0 := by omega
    have h2 : (2 * t + 1) % 2 = 1 := by omega
    simp [h1, h2]
  | succ i =>
    have e1 : 2 * t / 2 = t := by omega
    have e2 : (2 * t + 1) / 2 = t := by omega
    simp [Nat.testBit_succ, Nat.xor_div_two, e1, e2]

theorem linApply_basis :
    ∀ (w : Nat) (h : Nat → Nat), (∀ a b, h (a ^^^ b) = h a ^^^ h b) →
      ∀ s, s < 2 ^ w → h s = linApply ((List.range w).map fun i => h (2 ^ i)) s := by
  intro w
  induction w with
  | zero =>
    intro h hadd s hs
    have h0 : h 0 = 0 := by
      have t := hadd 0 0
      simpa using t
    have hs0 : s = 0 := by
      have : s < 1 := by simpa using hs
      omega
    subst hs0
    simpa [linApply] using h0
  | succ w ih =>
    intro h hadd s hs
    rw [List.range_succ_eq_map, List.map_cons, List.map_map]
    have comp : ((fun i => h (2 ^ i)) ∘ Nat.succ) = fun i => h (2 * 2 ^ i) := by
      funext i
      simp [Nat.pow_succ, Nat.mul_comm]
    rw [comp]
    have hadd2 : ∀ a b, h (2 * (a ^^^ b)) = h (2 * a) ^^^ h (2 * b) := by
      intro a b
      rw [two_mul_xor_distrib]
      exact hadd _ _
    have hs2 : s / 2 < 2 ^ w := by
      have hpow : 2 ^ (w + 1) = 2 ^ w * 2 := Nat.pow_succ 2 w
      omega
    have IH : h (2 * (s / 2)) =
        linApply ((List.range w).map fun i => h (2 * 2 ^ i)) (s / 2) :=
      ih (fun t => h (2 * t)) hadd2 (s / 2) hs2
    simp only [linApply]
    rw [← IH]
    by_cases hp : s % 2 = 1
    · have hb : s.testBit 0 = true := by simp [hp]
      rw [hb, if_pos rfl]
      rw [pow_zero, ← hadd 1 (2 * (s / 2)), one_xor_two_mul]
      have : 2 * (s / 2) + 1 = s := by omega
      rw [this]
    · have hb : s.testBit 0 = false := by simp [hp]
      rw [hb, if_neg (by simp)]
      rw [Nat.zero_xor]
      have : 2 * (s / 2) = s := by omega
      rw [this]

theorem linApply_id (w s : Nat) (hs : s < 2 ^ w) :
    linApply ((List.range w).map fun i => 2 ^ i) s = s := by
  have h := linApply_basis w (fun t => t) (fun a b => rfl) s hs
  exact h.symm

theorem stateStepInv_stateStep (s : Nat) (hs : s < 2 ^ 64) :
    stateStepInv (stateStep s) = s := by
  have hadd : ∀ a b,
      stateStepInv (stateStep (a ^^^ b)) =
        stateStepInv (stateStep a) ^^^ stateStepInv (stateStep b) := by
    intro a b
    rw [stateStep_xor]
    exact linApply_xor invCols _ _
  have hbasis : stateStepInv (stateStep s) =
      linApply ((List.range 64).map fun i => stateStepInv (stateStep (2 ^ i))) s :=
    linApply_basis 64 (fun t => stateStepInv (stateStep t)) hadd s hs
  have hcols : ((List.range 64).map fun i => stateStepInv (stateStep (2 ^ i))) =
      ((List.range 64).map fun i => 2 ^ i) := by decide
  rw [hbasis, hcols, linApply_id 64 s hs]

theorem stateStep_ne_zero (s : Nat) (hs : s < 2 ^ 64) (hnz : s ≠ 0) :
    stateStep s ≠ 0 := by
  intro h0
  apply hnz
  have h := stateStepInv_stateStep s hs
  rw [h0] at h
  have z : stateStepInv 0 = 0 := by decide
  rw [z] at h
  exact h.symm

theorem u64Step_state (g : XorShift64Star) : (u64Step g).state = stateStep g.state :=
  rfl

theorem u64Step_preserves (g : XorShift64Star) (h1 : g.state < 2 ^ 64) (h2 : g.state ≠ 0) :
    ∀ k, (u64Step^[k] g).state < 2 ^ 64 ∧ (u64Step^[k] g).state ≠ 0 := by
  intro k
  induction k generalizing g with
  | zero => exact ⟨h1, h2⟩
  | succ k ih =>
    rw [Function.iterate_succ_apply]
    exact ih (u64Step g) (by rw [u64Step_state]; exact stateStep_lt _)
      (by rw [u64Step_state]; exact stateStep_ne_zero _ h1 h2)

/-! ### Claim theorems: the generator -/

/-- C1: the claim asserts that `next_u64` implements the xorshift64
recurrence with every step reduced modulo `2 ^ 64`.  The code masks only
once, at the end, so the `>>> 27` step sees the overflow bits of the
unmasked `<<< 25` step; at the shipped seed `0xDEADBEEFCAFEBABE` the state
stored and the value returned both differ from the per-step-reduced
recurrence that the claim (and the benchmark RNG the docstring promises to
match) prescribes. -/
theorem next_u64_differs_from_per_step_reduction :
    stateStep 0xDEADBEEFCAFEBABE = 0x8140450853081684 ∧
    stateStepPerStepReduced 0xDEADBEEFCAFEBABE = 0xB6E8500853081684 ∧
    ((XorShift64Star.new 0xDEADBEEFCAFEBABE).next_u64).1 = 0xB3A118BF9F0A80F4 ∧
    ((XorShift64Star.new 0xDEADBEEFCAFEBABE).next_u64).2.state ≠
      stateStepPerStepReduced 0xDEADBEEFCAFEBABE ∧
    ((XorShift64Star.new 0xDEADBEEFCAFEBABE).next_u64).1 ≠
      stateStepPerStepReduced 0xDEADBEEFCAFEBABE * 0x2545F4914F6CDD1D % 2 ^ 64 := by
  decide

/-- C2: the generator state is never zero: construction with seed 0 stores 1
(and hence produces the same `next_u64` output sequence as seed 1), any
nonzero seed is stored verbatim, and from any nonzero 64-bit seed the state
is still nonzero after any number of `next_u64` calls. -/
theorem state_never_zero :
    XorShift64Star.new 0 = XorShift64Star.new 1 ∧
    (∀ k, u64Stream (XorShift64Star.new 0) k = u64Stream (XorShift64Star.new 1) k) ∧
    (∀ seed, seed ≠ 0 → (XorShift64Star.new seed).state = seed) ∧
    (∀ seed, seed < 2 ^ 64 → seed ≠ 0 →
      ∀ k, (u64Step^[k] (XorShift64Star.new seed)).state ≠ 0) := by
  refine ⟨rfl, fun k => rfl, fun seed h => by simp [XorShift64Star.new, h], ?_⟩
  intro seed hlt hnz k
  have hstate : (XorShift64Star.new seed).state = seed := by
    simp [XorShift64Star.new, hnz]
  exact (u64Step_preserves _ (by rw [hstate]; exact hlt) (by rw [hstate]; exact hnz) k).2

/-- Witness for C2 at seed 5 and two generator steps. -/
theorem state_never_zero_witness :
    (5 : Nat) < 2 ^ 64 ∧ (5 : Nat) ≠ 0 ∧
      (u64Step^[2] (XorShift64Star.new 5)).state ≠ 0 :=
  ⟨by decide, by decide, state_never_zero.2.2.2 5 (by decide) (by decide) 2⟩

/-- C3: `next_usize` returns 0 and leaves the generator state (and the count
of `next_u64` draws) unchanged whenever `bound ≤ 1`; for `bound > 1` it
returns `next_u64() % bound`, a value below `bound`, and advances the state
by exactly one `next_u64` call. -/
theorem next_usize_spec (g : XorShift64Star) (bound : Nat) :
    (bound ≤ 1 →
      (g.next_usize bound).1 = 0 ∧
      (g.next_usize bound).2.state = g.state ∧
      (g.next_usize bound).2.u64_calls = g.u64_calls) ∧
    (1 < bound →
      (g.next_usize bound).1 = (g.next_u64).1 % bound ∧
      (g.next_usize bound).1 < bound ∧
      (g.next_usize bound).2.state = (g.next_u64).2.state ∧
      (g.next_usize bound).2.u64_calls = g.u64_calls + 1) := by
  constructor
  · intro h
    simp [XorShift64Star.next_usize, h]
  · intro h
    have h' : ¬ bound ≤ 1 := by omega
    refine ⟨by simp [XorShift64Star.next_usize, h'], ?_, ?_, ?_⟩
    · simp only [XorShift64Star.next_usize, if_neg h']
      exact Nat.mod_lt _ (by omega)
    · simp [XorShift64Star.next_usize, h']
    · simp [XorShift64Star.next_usize, h', XorShift64Star.next_u64]

/-- Witness for C3: both branches at concrete inputs. -/
theorem next_usize_spec_witness :
    ((1 : Nat) ≤ 1 ∧ ((XorShift64Star.new 9).next_usize 1).1 = 0) ∧
    ((1 : Nat) < 5 ∧ ((XorShift64Star.new 9).next_usize 5).1 < 5) :=
  ⟨⟨by decide, ((next_usize_spec (XorShift64Star.new 9) 1).1 (by decide)).1⟩,
   ⟨by decide, ((next_usize_spec (XorShift64Star.new 9) 5).2 (by decide)).2.1⟩⟩

/-- C8: determinism: two generators with the same state produce identical
`next_u64` output sequences (regardless of the ghost counters), and the
builder is a pure function of its configuration, so re-running it with the
same seed and constants reproduces an identical workload. -/
theorem generator_and_builder_deterministic :
    (∀ g1 g2 : XorShift64Star, g1.state = g2.state →
      ∀ k, u64Stream g1 k = u64Stream g2 k) ∧
    (∀ cfg1 cfg2 : Config, cfg1 = cfg2 → generate_data cfg1 = generate_data cfg2) := by
  constructor
  · intro g1 g2 h k
    induction k generalizing g1 g2 with
    | zero => rfl
    | succ k ih =>
      simp only [u64Stream, XorShift64Star.next_u64, h]
      exact congrArg _ (ih _ _ rfl)
  · intro cfg1 cfg2 h
    rw [h]

/-- Witness for C8: equal states with different ghost counters give equal
output streams. -/
theorem generator_and_builder_deterministic_witness :
    ({ state := 3, u64_calls := 0, usize_calls := 0 } : XorShift64Star).state =
      ({ state := 3, u64_calls := 5, usize_calls := 7 } : XorShift64Star).state ∧
    u64Stream { state := 3, u64_calls := 0, usize_calls := 0 } 2 =
      u64Stream { state := 3, u64_calls := 5, usize_calls := 7 } 2 :=
  ⟨rfl, generator_and_builder_deterministic.1 _ _ rfl 2⟩

/-! ### The Fisher-Yates shuffle -/

theorem cons_set_perm (a : α) :
    ∀ (t : List α) (m : Nat) (y : α), t[m]? = some y →
      List.Perm (y :: t.set m a) (a :: t) := by
  intro t
  induction t with
  | nil =>
    intro m y h
    simp at h
  | cons b t' ih =>
    intro m y h
    cases m with
    | zero =>
      simp at h
      subst h
      show List.Perm (b :: a :: t') (a :: b :: t')
      exact List.Perm.swap a b t'
    | succ m =>
      simp at h
      show List.Perm (y :: b :: t'.set m a) (a :: b :: t')
      have h1 : List.Perm (y :: b :: t'.set m a) (b :: y :: t'.set m a) :=
        List.Perm.swap b y _
      have h2 : List.Perm (b :: y :: t'.set m a) (b :: a :: t') :=
        List.Perm.cons b (ih m y h)
      have h3 : List.Perm (b :: a :: t') (a :: b :: t') := List.Perm.swap a b t'
      exact (h1.trans h2).trans h3

theorem set_set_perm :
    ∀ (l : List α) (i j : Nat) (x y : α), l[i]? = some x → l[j]? = some y →
      List.Perm ((l.set i y).set j x) l := by
  intro l
  induction l with
  | nil =>
    intro i j x y h1 _h2
    simp at h1
  | cons a t ih =>
    intro i j x y h1 h2
    cases i with
    | zero =>
      simp at h1
      subst h1
      cases j with
      | zero =>
        simp at h2
        subst h2
        exact List.Perm.refl _
      | succ m =>
        simp at h2
        show List.Perm (y :: t.set m a) (a :: t)
        exact cons_set_perm a t m y h2
    | succ m =>
      cases j with
      | zero =>
        simp at h1 h2
        subst h2
        show List.Perm (x :: t.set m a) (a :: t)
        exact cons_set_perm a t m x h1
      | succ k =>
        simp at h1 h2
        show List.Perm (a :: (t.set m y).set k x) (a :: t)
        exact List.Perm.cons a (ih m k x y h1 h2)

theorem listSwap_perm (l : List α) (i j : Nat) : List.Perm (listSwap l i j) l := by
  unfold listSwap
  cases h1 : l[i]? with
  | none => exact List.Perm.refl l
  | some x =>
    cases h2 : l[j]? with
    | none => exact List.Perm.refl l
    | some y => exact set_set_perm l i j x y h1 h2

theorem next_usize_usize_calls (g : XorShift64Star) (b : Nat) :
    (g.next_usize b).2.usize_calls = g.usize_calls + 1 := by
  by_cases h : b ≤ 1 <;> simp [XorShift64Star.next_usize, h, XorShift64Star.next_u64]

theorem shuffleAux_succ (g : XorShift64Star) (l : List α) (k : Nat) :
    shuffleAux g l (k + 1) =
      shuffleAux (g.next_usize (k + 2)).2 (listSwap l (k + 1) (g.next_usize (k + 2)).1) k :=
  rfl

theorem shuffleAux_perm (g : XorShift64Star) (l : List α) (k : Nat) :
    List.Perm (shuffleAux g l k).1 l := by
  induction k generalizing g l with
  | zero => exact List.Perm.refl l
  | succ k ih =>
    rw [shuffleAux_succ]
    exact (ih _ _).trans (listSwap_perm l (k + 1) _)

theorem shuffleAux_usize_calls (g : XorShift64Star) (l : List α) (k : Nat) :
    (shuffleAux g l k).2.usize_calls = g.usize_calls + k := by
  induction k generalizing g l with
  | zero => rfl
  | succ k ih =>
    rw [shuffleAux_succ, ih, next_usize_usize_calls]
    omega

/-- C4: the Fisher-Yates `shuffle` produces a permutation (same multiset of
elements) of its input, and performs exactly `length - 1` calls to
`next_usize` (measured by the ghost call counter). -/
theorem shuffle_perm_and_draw_count (g : XorShift64Star) (l : List α) :
    List.Perm (g.shuffle l).1 l ∧
    (g.shuffle l).2.usize_calls = g.usize_calls + (l.length - 1) :=
  ⟨shuffleAux_perm g l (l.length - 1), shuffleAux_usize_calls g l (l.length - 1)⟩

/-! ### List access helpers -/

theorem getD_range (n k : Nat) (h : k < n) : (List.range n).getD k 0 = k := by
  rw [List.getD_eq_getElem?_getD, List.getElem?_eq_getElem (by simpa using h)]
  simp

theorem getD_mem (l : List α) (k : Nat) (d : α) (h : k < l.length) : l.getD k d ∈ l := by
  rw [List.getD_eq_getElem?_getD, List.getElem?_eq_getElem h]
  exact List.getElem_mem h

theorem getD_append_left {l1 l2 : List α} {k : Nat} (h : k < l1.length) (d : α) :
    (l1 ++ l2).getD k d = l1.getD k d := by
  simp [List.getD_eq_getElem?_getD, List.getElem?_append_left h]

theorem getD_append_right {l1 l2 : List α} {k : Nat} (h : l1.length ≤ k) (d : α) :
    (l1 ++ l2).getD k d = l2.getD (k - l1.length) d := by
  simp [List.getD_eq_getElem?_getD, List.getElem?_append_right h]

theorem map_getD_range_self (l : List Nat) :
    (List.range l.length).map (fun i => l.getD i 0) = l := by
  induction l with
  | nil => rfl
  | cons a t ih =>
    rw [List.length_cons, List.range_succ_eq_map, List.map_cons, List.map_map]
    congr 1

theorem reindex_eq_self (n : Nat) (ord : List Nat) (hlen : ord.length = n)
    (hmem : ∀ x ∈ ord, x < n) :
    ((List.range n).map fun i => (List.range n).getD (ord.getD i 0) 0) = ord := by
  have h1 : ∀ i ∈ List.range n,
      (fun i => (List.range n).getD (ord.getD i 0) 0) i = (fun i => ord.getD i 0) i := by
    intro i hi
    have hi' : i < n := List.mem_range.mp hi
    have hm : ord.getD i 0 ∈ ord := getD_mem ord i 0 (by rw [hlen]; exact hi')
    exact getD_range n _ (hmem _ hm)
  rw [List.map_congr_left h1, ← hlen]
  exact map_getD_range_self ord

/-! ### The insert series -/

theorem generate_data_insert_keys (cfg : Config) :
    (generate_data cfg).insert_keys =
      (List.range cfg.N).map fun i =>
        (List.range cfg.N).getD ((orderList cfg).getD i 0) 0 :=
  rfl

theorem generate_data_insert_data (cfg : Config) :
    (generate_data cfg).insert_data = (drawChars (XorShift64Star.new cfg.SEED) cfg.N).1 :=
  rfl

theorem drawChars_length (g : XorShift64Star) (c : Nat) : (drawChars g c).1.length = c := by
  induction c generalizing g with
  | zero => rfl
  | succ c ih => simp [drawChars, ih]

theorem orderList_perm (cfg : Config) : List.Perm (orderList cfg) (List.range cfg.N) :=
  shuffleAux_perm _ _ _

theorem insert_keys_eq_orderList (cfg : Config) :
    (generate_data cfg).insert_keys = orderList cfg := by
  rw [generate_data_insert_keys]
  apply reindex_eq_self
  · rw [(orderList_perm cfg).length_eq, List.length_range]
  · intro x hx
    exact List.mem_range.mp ((orderList_perm cfg).mem_iff.mp hx)

/-- C5: in every workload produced by the builder, `insert_keys` has exactly
`N` elements and is a permutation of `0..N-1` (it is produced by shuffling
the side permutation array and re-indexing the identity key list through
it), and `insert_data` also has exactly `N` elements, parallel by position. -/
theorem insert_keys_permutation (cfg : Config) (_hN : 0 < cfg.N) :
    List.Perm (generate_data cfg).insert_keys (List.range cfg.N) ∧
    (generate_data cfg).insert_keys.length = cfg.N ∧
    (generate_data cfg).insert_data.length = cfg.N := by
  have hperm : List.Perm (generate_data cfg).insert_keys (List.range cfg.N) := by
    rw [insert_keys_eq_orderList]
    exact orderList_perm cfg
  refine ⟨hperm, ?_, ?_⟩
  · rw [hperm.length_eq, List.length_range]
  · rw [generate_data_insert_data]
    exact drawChars_length _ _

/-- Witness for C5 at the small consistent configuration. -/
theorem insert_keys_permutation_witness :
    0 < smallCfg.N ∧ (generate_data smallCfg).insert_keys.length = smallCfg.N :=
  ⟨by decide, (insert_keys_permutation smallCfg (by decide)).2.1⟩

/-! ### The remove series -/

theorem next_usize_lt (g : XorShift64Star) (n : Nat) (h : 0 < n) :
    (g.next_usize n).1 < n := by
  by_cases h1 : n ≤ 1
  · simp only [XorShift64Star.next_usize, if_pos h1]
    omega
  · simp only [XorShift64Star.next_usize, if_neg h1]
    exact Nat.mod_lt _ h

theorem removeHitsLoop_succ (g : XorShift64Star) (n c : Nat) :
    removeHitsLoop g n (c + 1) =
      ((true :: (removeHitsLoop (g.next_usize n).2 n c).1.1,
        (g.next_usize n).1 :: (removeHitsLoop (g.next_usize n).2 n c).1.2.1,
        0 :: (removeHitsLoop (g.next_usize n).2 n c).1.2.2),
       (removeHitsLoop (g.next_usize n).2 n c).2) :=
  rfl

theorem removeHitsLoop_flags (g : XorShift64Star) (n c : Nat) :
    (removeHitsLoop g n c).1.1 = List.replicate c true := by
  induction c generalizing g with
  | zero => rfl
  | succ c ih => rw [removeHitsLoop_succ, List.replicate_succ]; exact congrArg _ (ih _)

theorem removeHitsLoop_ms (g : XorShift64Star) (n c : Nat) :
    (removeHitsLoop g n c).1.2.2 = List.replicate c 0 := by
  induction c generalizing g with
  | zero => rfl
  | succ c ih => rw [removeHitsLoop_succ, List.replicate_succ]; exact congrArg _ (ih _)

theorem removeHitsLoop_idx_length (g : XorShift64Star) (n c : Nat) :
    (removeHitsLoop g n c).1.2.1.length = c := by
  induction c generalizing g with
  | zero => rfl
  | succ c ih => rw [removeHitsLoop_succ]; simp [ih]

theorem removeHitsLoop_idx_getD (g : XorShift64Star) (n c : Nat) :
    ∀ k, k < c → (removeHitsLoop g n c).1.2.1.getD k 0 =
      (((removeHitStep n)^[k] g).next_usize n).1 := by
  induction c generalizing g with
  | zero => intro k hk; omega
  | succ c ih =>
    intro k hk
    rw [removeHitsLoop_succ]
    cases k with
    | zero => rfl
    | succ k =>
      rw [List.getD_cons_succ, ih _ k (by omega), Function.iterate_succ_apply]
      rfl

theorem removeMissesLoop_succ (g : XorShift64Star) (n c : Nat) :
    removeMissesLoop g n (c + 1) =
      ((false :: (removeMissesLoop (g.next_u64).2 n c).1.1,
        0 :: (removeMissesLoop (g.next_u64).2 n c).1.2.1,
        (n + (g.next_u64).1 % n + 1) :: (removeMissesLoop (g.next_u64).2 n c).1.2.2),
       (removeMissesLoop (g.next_u64).2 n c).2) :=
  rfl

theorem removeMissesLoop_flags (g : XorShift64Star) (n c : Nat) :
    (removeMissesLoop g n c).1.1 = List.replicate c false := by
  induction c generalizing g with
  | zero => rfl
  | succ c ih => rw [removeMissesLoop_succ, List.replicate_succ]; exact congrArg _ (ih _)

theorem removeMissesLoop_idxs (g : XorShift64Star) (n c : Nat) :
    (removeMissesLoop g n c).1.2.1 = List.replicate c 0 := by
  induction c generalizing g with
  | zero => rfl
  | succ c ih => rw [removeMissesLoop_succ, List.replicate_succ]; exact congrArg _ (ih _)

theorem removeMissesLoop_keys_length (g : XorShift64Star) (n c : Nat) :
    (removeMissesLoop g n c).1.2.2.length = c := by
  induction c generalizing g with
  | zero => rfl
  | succ c ih => rw [removeMissesLoop_succ]; simp [ih]

theorem removeMissesLoop_keys_getD (g : XorShift64Star) (n c : Nat) :
    ∀ k, k < c → (removeMissesLoop g n c).1.2.2.getD k 0 =
      n + ((u64Step^[k] g).next_u64).1 % n + 1 := by
  induction c generalizing g with
  | zero => intro k hk; omega
  | succ c ih =>
    intro k hk
    rw [removeMissesLoop_succ]
    cases k with
    | zero => rfl
    | succ k =>
      rw [List.getD_cons_succ, ih _ k (by omega), Function.iterate_succ_apply]
      rfl

theorem generate_data_remove_is_hit (cfg : Config) :
    (generate_data cfg).remove_is_hit =
      (removeHitsLoop (genAfterUpdateData cfg) cfg.N cfg.REMOVE_HITS).1.1 ++
      (removeMissesLoop (genAfterRemoveHits cfg) cfg.N cfg.REMOVE_MISSES).1.1 :=
  rfl

theorem generate_data_remove_indices (cfg : Config) :
    (generate_data cfg).remove_indices =
      (removeHitsLoop (genAfterUpdateData cfg) cfg.N cfg.REMOVE_HITS).1.2.1 ++
      (removeMissesLoop (genAfterRemoveHits cfg) cfg.N cfg.REMOVE_MISSES).1.2.1 :=
  rfl

theorem generate_data_remove_miss_keys (cfg : Config) :
    (generate_data cfg).remove_miss_keys =
      (removeHitsLoop (genAfterUpdateData cfg) cfg.N cfg.REMOVE_HITS).1.2.2 ++
      (removeMissesLoop (genAfterRemoveHits cfg) cfg.N cfg.REMOVE_MISSES).1.2.2 :=
  rfl

/-- C6: the remove series has exactly `REMOVE_HITS + REMOVE_MISSES` entries;
the first `REMOVE_HITS` are all tagged `Hit`, each carrying an index drawn by
one `next_usize(N)` and lying in `[0, N)`; the last `REMOVE_MISSES` are all
tagged `Miss`, each carrying the key `N + next_u64() % N + 1`, which is
strictly greater than `N - 1` and at most `2 * N`; hits and misses are never
interleaved (the tag column is literally a block of `true`s followed by a
block of `false`s). -/
theorem remove_series_structure (cfg : Config) (hN : 0 < cfg.N) :
    (generate_data cfg).remove_is_hit =
      List.replicate cfg.REMOVE_HITS true ++ List.replicate cfg.REMOVE_MISSES false ∧
    (generate_data cfg).remove_is_hit.length = cfg.REMOVE_HITS + cfg.REMOVE_MISSES ∧
    (generate_data cfg).remove_indices.length = cfg.REMOVE_HITS + cfg.REMOVE_MISSES ∧
    (generate_data cfg).remove_miss_keys.length = cfg.REMOVE_HITS + cfg.REMOVE_MISSES ∧
    (∀ k, k < cfg.REMOVE_HITS →
      (generate_data cfg).remove_indices.getD k 0 =
        (((removeHitStep cfg.N)^[k] (genAfterUpdateData cfg)).next_usize cfg.N).1 ∧
      (generate_data cfg).remove_indices.getD k 0 < cfg.N) ∧
    (∀ k, cfg.REMOVE_HITS ≤ k → k < cfg.REMOVE_HITS + cfg.REMOVE_MISSES →
      (generate_data cfg).remove_miss_keys.getD k 0 =
        cfg.N + ((u64Step^[k - cfg.REMOVE_HITS] (genAfterRemoveHits cfg)).next_u64).1 %
          cfg.N + 1 ∧
      cfg.N - 1 < (generate_data cfg).remove_miss_keys.getD k 0 ∧
      (generate_data cfg).remove_miss_keys.getD k 0 ≤ 2 * cfg.N) := by
  refine ⟨?_, ?_, ?_, ?_, ?_, ?_⟩
  · rw [generate_data_remove_is_hit, removeHitsLoop_flags, removeMissesLoop_flags]
  · rw [generate_data_remove_is_hit, List.length_append, removeHitsLoop_flags,
      removeMissesLoop_flags, List.length_replicate, List.length_replicate]
  · rw [generate_data_remove_indices, List.length_append, removeHitsLoop_idx_length,
      removeMissesLoop_idxs, List.length_replicate]
  · rw [generate_data_remove_miss_keys, List.length_append, removeHitsLoop_ms,
      removeMissesLoop_keys_length, List.length_replicate]
  · intro k hk
    rw [generate_data_remove_indices,
      getD_append_left (by rw [removeHitsLoop_idx_length]; exact hk),
      removeHitsLoop_idx_getD _ _ _ k hk]
    exact ⟨rfl, next_usize_lt _ _ hN⟩
  · intro k hk1 hk2
    have hlen : (removeHitsLoop (genAfterUpdateData cfg) cfg.N cfg.REMOVE_HITS).1.2.2.length =
        cfg.REMOVE_HITS := by
      rw [removeHitsLoop_ms, List.length_replicate]
    rw [generate_data_remove_miss_keys, getD_append_right (by rw [hlen]; exact hk1), hlen,
      removeMissesLoop_keys_getD _ _ _ (k - cfg.REMOVE_HITS) (by omega)]
    have hv : ((u64Step^[k - cfg.REMOVE_HITS] (genAfterRemoveHits cfg)).next_u64).1 %
        cfg.N < cfg.N := Nat.mod_lt _ hN
    exact ⟨rfl, by omega, by omega⟩

/-- Witness for C6 at the small consistent configuration. -/
theorem remove_series_structure_witness :
    0 < smallCfg.N ∧
    (generate_data smallCfg).remove_is_hit =
      List.replicate smallCfg.REMOVE_HITS true ++
        List.replicate smallCfg.REMOVE_MISSES false :=
  ⟨by decide, (remove_series_structure smallCfg (by decide)).1⟩

/-! ### The search series -/

theorem searchLoop_succ (g : XorShift64Star) (n : Nat) (rate : ℚ) (c : Nat) :
    searchLoop g n rate (c + 1) =
      if (g.next_f64).1 < rate then
        ((true :: (searchLoop ((g.next_f64).2.next_usize n).2 n rate c).1.1,
          ((g.next_f64).2.next_usize n).1 ::
            (searchLoop ((g.next_f64).2.next_usize n).2 n rate c).1.2.1,
          0 :: (searchLoop ((g.next_f64).2.next_usize n).2 n rate c).1.2.2),
         (searchLoop ((g.next_f64).2.next_usize n).2 n rate c).2)
      else
        ((false :: (searchLoop ((g.next_f64).2.next_u64).2 n rate c).1.1,
          0 :: (searchLoop ((g.next_f64).2.next_u64).2 n rate c).1.2.1,
          (n + ((g.next_f64).2.next_u64).1 % n + 1) ::
            (searchLoop ((g.next_f64).2.next_u64).2 n rate c).1.2.2),
         (searchLoop ((g.next_f64).2.next_u64).2 n rate c).2) :=
  rfl

theorem searchLoop_lengths (g : XorShift64Star) (n : Nat) (rate : ℚ) (c : Nat) :
    (searchLoop g n rate c).1.1.length = c ∧
    (searchLoop g n rate c).1.2.1.length = c ∧
    (searchLoop g n rate c).1.2.2.length = c := by
  induction c generalizing g with
  | zero => exact ⟨rfl, rfl, rfl⟩
  | succ c ih =>
    rw [searchLoop_succ]
    by_cases hf : (g.next_f64).1 < rate
    · rw [if_pos hf]
      obtain ⟨h1, h2, h3⟩ := ih ((g.next_f64).2.next_usize n).2
      simp [h1, h2, h3]
    · rw [if_neg hf]
      obtain ⟨h1, h2, h3⟩ := ih ((g.next_f64).2.next_u64).2
      simp [h1, h2, h3]

theorem searchLoop_trace (n : Nat) (rate : ℚ) (c : Nat) :
    ∀ (g : XorShift64Star) (k : Nat), k < c →
      ((searchLoop g n rate c).1.1.getD k false =
        decide ((((searchStep n rate)^[k] g).next_f64).1 < rate)) ∧
      ((((searchStep n rate)^[k] g).next_f64).1 < rate →
        (searchLoop g n rate c).1.2.1.getD k 0 =
          ((((searchStep n rate)^[k] g).next_f64).2.next_usize n).1 ∧
        (searchLoop g n rate c).1.2.2.getD k 0 = 0) ∧
      (¬ (((searchStep n rate)^[k] g).next_f64).1 < rate →
        (searchLoop g n rate c).1.2.1.getD k 0 = 0 ∧
        (searchLoop g n rate c).1.2.2.getD k 0 =
          n + ((((searchStep n rate)^[k] g).next_f64).2.next_u64).1 % n + 1) := by
  induction c with
  | zero => intro g k hk; omega
  | succ c ih =>
    intro g k hk
    rw [searchLoop_succ]
    by_cases hf : (g.next_f64).1 < rate
    · rw [if_pos hf]
      cases k with
      | zero =>
        refine ⟨by simp [hf], fun _ => ⟨rfl, rfl⟩, fun hc => absurd hf hc⟩
      | succ k =>
        have hstep : (searchStep n rate)^[k + 1] g =
            (searchStep n rate)^[k] ((g.next_f64).2.next_usize n).2 := by
          rw [Function.iterate_succ_apply]
          congr 1
          simp [searchStep, hf]
        rw [hstep]
        simp only [List.getD_cons_succ]
        exact ih ((g.next_f64).2.next_usize n).2 k (by omega)
    · rw [if_neg hf]
      cases k with
      | zero =>
        refine ⟨by simp [hf], fun hc => absurd hc hf, fun _ => ⟨rfl, rfl⟩⟩
      | succ k =>
        have hstep : (searchStep n rate)^[k + 1] g =
            (searchStep n rate)^[k] ((g.next_f64).2.next_u64).2 := by
          rw [Function.iterate_succ_apply]
          congr 1
          simp [searchStep, hf]
        rw [hstep]
        simp only [List.getD_cons_succ]
        exact ih ((g.next_f64).2.next_u64).2 k (by omega)

theorem generate_data_search_is_hit (cfg : Config) :
    (generate_data cfg).search_is_hit =
      (searchLoop (genAfterRemoveMisses cfg) cfg.N cfg.SEARCH_HIT_RATE
        cfg.SEARCH_COUNT).1.1 :=
  rfl

theorem generate_data_search_indices (cfg : Config) :
    (generate_data cfg).search_indices =
      (searchLoop (genAfterRemoveMisses cfg) cfg.N cfg.SEARCH_HIT_RATE
        cfg.SEARCH_COUNT).1.2.1 :=
  rfl

theorem generate_data_search_miss_keys (cfg : Config) :
    (generate_data cfg).search_miss_keys =
      (searchLoop (genAfterRemoveMisses cfg) cfg.N cfg.SEARCH_HIT_RATE
        cfg.SEARCH_COUNT).1.2.2 :=
  rfl

/-- C7: the search series has exactly `SEARCH_COUNT` entries; for each entry
in order, the tag equals the comparison of that iteration's `next_f64` draw
against `SEARCH_HIT_RATE` (hit exactly when the draw is strictly below the
rate); a hit entry's index is supplied by one `next_usize(N)` and lies in
`[0, N)`; a miss entry's key equals `N + next_u64() % N + 1` and lies
strictly outside `[0, N)` (and at most `2 * N`). -/
theorem search_series_structure (cfg : Config) (hN : 0 < cfg.N) :
    (generate_data cfg).search_is_hit.length = cfg.SEARCH_COUNT ∧
    (generate_data cfg).search_indices.length = cfg.SEARCH_COUNT ∧
    (generate_data cfg).search_miss_keys.length = cfg.SEARCH_COUNT ∧
    (∀ k, k < cfg.SEARCH_COUNT →
      ((generate_data cfg).search_is_hit.getD k false =
        decide ((((searchStep cfg.N cfg.SEARCH_HIT_RATE)^[k]
          (genAfterRemoveMisses cfg)).next_f64).1 < cfg.SEARCH_HIT_RATE)) ∧
      ((generate_data cfg).search_is_hit.getD k false = true →
        (generate_data cfg).search_indices.getD k 0 =
          ((((searchStep cfg.N cfg.SEARCH_HIT_RATE)^[k]
            (genAfterRemoveMisses cfg)).next_f64).2.next_usize cfg.N).1 ∧
        (generate_data cfg).search_indices.getD k 0 < cfg.N) ∧
      ((generate_data cfg).search_is_hit.getD k false = false →
        (generate_data cfg).search_miss_keys.getD k 0 =
          cfg.N + ((((searchStep cfg.N cfg.SEARCH_HIT_RATE)^[k]
            (genAfterRemoveMisses cfg)).next_f64).2.next_u64).1 % cfg.N + 1 ∧
        ¬ (generate_data cfg).search_miss_keys.getD k 0 < cfg.N ∧
        (generate_data cfg).search_miss_keys.getD k 0 ≤ 2 * cfg.N)) := by
  obtain ⟨l1, l2, l3⟩ :=
    searchLoop_lengths (genAfterRemoveMisses cfg) cfg.N cfg.SEARCH_HIT_RATE cfg.SEARCH_COUNT
  refine ⟨by rw [generate_data_search_is_hit]; exact l1,
    by rw [generate_data_search_indices]; exact l2,
    by rw [generate_data_search_miss_keys]; exact l3, ?_⟩
  intro k hk
  obtain ⟨t1, t2, t3⟩ :=
    searchLoop_trace cfg.N cfg.SEARCH_HIT_RATE cfg.SEARCH_COUNT
      (genAfterRemoveMisses cfg) k hk
  refine ⟨by rw [generate_data_search_is_hit]; exact t1, ?_, ?_⟩
  · intro hhit
    have hcond : (((searchStep cfg.N cfg.SEARCH_HIT_RATE)^[k]
        (genAfterRemoveMisses cfg)).next_f64).1 < cfg.SEARCH_HIT_RATE := by
      apply of_decide_eq_true
      rw [← t1]
      rw [generate_data_search_is_hit] at hhit
      exact hhit
    obtain ⟨e1, _e2⟩ := t2 hcond
    rw [generate_data_search_indices, e1]
    exact ⟨rfl, next_usize_lt _ _ hN⟩
  · intro hmiss
    have hcond : ¬ (((searchStep cfg.N cfg.SEARCH_HIT_RATE)^[k]
        (genAfterRemoveMisses cfg)).next_f64).1 < cfg.SEARCH_HIT_RATE := by
      apply of_decide_eq_false
      rw [← t1]
      rw [generate_data_search_is_hit] at hmiss
      exact hmiss
    obtain ⟨_e1, e2⟩ := t3 hcond
    have hv : ((((searchStep cfg.N cfg.SEARCH_HIT_RATE)^[k]
        (genAfterRemoveMisses cfg)).next_f64).2.next_u64).1 % cfg.N < cfg.N :=
      Nat.mod_lt _ hN
    rw [generate_data_search_miss_keys, e2]
    exact ⟨rfl, by omega, by omega⟩

/-- Witness for C7 at the small consistent configuration. -/
theorem search_series_structure_witness :
    0 < smallCfg.N ∧
    (generate_data smallCfg).search_is_hit.length = smallCfg.SEARCH_COUNT :=
  ⟨by decide, (search_series_structure smallCfg (by decide)).1⟩

/-! ### Configuration validation and padding -/

theorem getD_replicate_lt (a d : α) {n k : Nat} (h : k < n) :
    (List.replicate n a).getD k d = a := by
  rw [List.getD_eq_getElem?_getD, List.getElem?_eq_getElem (by simpa using h)]
  simp

/-- C9 counterexample: at a configuration with
`REMOVE_HITS + REMOVE_MISSES ≠ REMOVE_COUNT` the builder completes normally
and returns a full workload whose remove series has
`REMOVE_HITS + REMOVE_MISSES = 3` entries while reporting
`REMOVE_COUNT = 5`; no configuration error is raised, eagerly or at all. -/
theorem no_config_validation_counterexample :
    badCfg.REMOVE_HITS + badCfg.REMOVE_MISSES ≠ badCfg.REMOVE_COUNT ∧
    (generate_data badCfg).remove_is_hit.length = 3 ∧
    (generate_data badCfg).removes = 5 ∧
    (generate_data badCfg).remove_is_hit.length ≠ (generate_data badCfg).removes := by
  refine ⟨by decide, by decide, by decide, by decide⟩

/-- C9 (amended): the builder performs no configuration validation: for any
configuration with positive `N` it completes and produces exactly
`REMOVE_HITS + REMOVE_MISSES` remove entries, while the `removes` field of
the returned workload reports `REMOVE_COUNT` verbatim — even when the two
disagree, the inconsistent configuration is silently tolerated. -/
theorem builder_ignores_remove_count (cfg : Config) (_hN : 0 < cfg.N) :
    (generate_data cfg).remove_is_hit.length = cfg.REMOVE_HITS + cfg.REMOVE_MISSES ∧
    (generate_data cfg).removes = cfg.REMOVE_COUNT := by
  constructor
  · rw [generate_data_remove_is_hit, List.length_append, removeHitsLoop_flags,
      removeMissesLoop_flags, List.length_replicate, List.length_replicate]
  · rfl

/-- Witness for the amended C9 at the inconsistent configuration. -/
theorem builder_ignores_remove_count_witness :
    0 < badCfg.N ∧
    ((generate_data badCfg).remove_is_hit.length =
        badCfg.REMOVE_HITS + badCfg.REMOVE_MISSES ∧
      (generate_data badCfg).removes = badCfg.REMOVE_COUNT) :=
  ⟨by decide, builder_ignores_remove_count badCfg (by decide)⟩

/-- C10: the remove and search series are stored as three parallel arrays
each (flags, indices, miss keys) of the full series length, with every
unused slot padded with 0: a `Hit` entry has 0 in the miss-key column and a
`Miss` entry has 0 in the index column. -/
theorem parallel_arrays_zero_padding (cfg : Config) (_hN : 0 < cfg.N) :
    ((generate_data cfg).remove_is_hit.length = cfg.REMOVE_HITS + cfg.REMOVE_MISSES ∧
     (generate_data cfg).remove_indices.length = (generate_data cfg).remove_is_hit.length ∧
     (generate_data cfg).remove_miss_keys.length = (generate_data cfg).remove_is_hit.length) ∧
    ((generate_data cfg).search_is_hit.length = cfg.SEARCH_COUNT ∧
     (generate_data cfg).search_indices.length = (generate_data cfg).search_is_hit.length ∧
     (generate_data cfg).search_miss_keys.length = (generate_data cfg).search_is_hit.length) ∧
    (∀ k, k < cfg.REMOVE_HITS + cfg.REMOVE_MISSES →
      ((generate_data cfg).remove_is_hit.getD k false = true →
        (generate_data cfg).remove_miss_keys.getD k 0 = 0) ∧
      ((generate_data cfg).remove_is_hit.getD k false = false →
        (generate_data cfg).remove_indices.getD k 0 = 0)) ∧
    (∀ k, k < cfg.SEARCH_COUNT →
      ((generate_data cfg).search_is_hit.getD k false = true →
        (generate_data cfg).search_miss_keys.getD k 0 = 0) ∧
      ((generate_data cfg).search_is_hit.getD k false = false →
        (generate_data cfg).search_indices.getD k 0 = 0)) := by
  obtain ⟨l1, l2, l3⟩ :=
    searchLoop_lengths (genAfterRemoveMisses cfg) cfg.N cfg.SEARCH_HIT_RATE cfg.SEARCH_COUNT
  refine ⟨⟨?_, ?_, ?_⟩, ⟨?_, ?_, ?_⟩, ?_, ?_⟩
  · rw [generate_data_remove_is_hit, List.length_append, removeHitsLoop_flags,
      removeMissesLoop_flags, List.length_replicate, List.length_replicate]
  · rw [generate_data_remove_is_hit, generate_data_remove_indices, List.length_append,
      List.length_append, removeHitsLoop_flags, removeMissesLoop_flags,
      removeHitsLoop_idx_length, removeMissesLoop_idxs, List.length_replicate,
      List.length_replicate, List.length_replicate]
  · rw [generate_data_remove_is_hit, generate_data_remove_miss_keys, List.length_append,
      List.length_append, removeHitsLoop_flags, removeMissesLoop_flags,
      removeHitsLoop_ms, removeMissesLoop_keys_length, List.length_replicate,
      List.length_replicate, List.length_replicate]
  · rw [generate_data_search_is_hit]
    exact l1
  · rw [generate_data_search_is_hit, generate_data_search_indices, l1, l2]
  · rw [generate_data_search_is_hit, generate_data_search_miss_keys, l1, l3]
  · intro k hk
    by_cases hkH : k < cfg.REMOVE_HITS
    · have hflag : (generate_data cfg).remove_is_hit.getD k false = true := by
        rw [generate_data_remove_is_hit, removeHitsLoop_flags, removeMissesLoop_flags,
          getD_append_left (by simpa using hkH), getD_replicate_lt _ _ hkH]
      constructor
      · intro _
        rw [generate_data_remove_miss_keys, removeHitsLoop_ms,
          getD_append_left (by simpa using hkH), getD_replicate_lt _ _ hkH]
      · intro hf
        rw [hflag] at hf
        simp at hf
    · have hge : cfg.REMOVE_HITS ≤ k := by omega
      have hflag : (generate_data cfg).remove_is_hit.getD k false = false := by
        rw [generate_data_remove_is_hit, removeHitsLoop_flags, removeMissesLoop_flags,
          getD_append_right (by simpa using hge), List.length_replicate,
          getD_replicate_lt _ _ (by omega)]
      constructor
      · intro ht
        rw [hflag] at ht
        simp at ht
      · intro _
        rw [generate_data_remove_indices, removeMissesLoop_idxs,
          getD_append_right (by rw [removeHitsLoop_idx_length]; exact hge),
          removeHitsLoop_idx_length, getD_replicate_lt _ _ (by omega)]
  · intro k hk
    obtain ⟨t1, t2, t3⟩ :=
      searchLoop_trace cfg.N cfg.SEARCH_HIT_RATE cfg.SEARCH_COUNT
        (genAfterRemoveMisses cfg) k hk
    constructor
    · intro ht
      rw [generate_data_search_is_hit] at ht
      have hcond := of_decide_eq_true (t1 ▸ ht)
      rw [generate_data_search_miss_keys]
      exact (t2 hcond).2
    · intro hf
      rw [generate_data_search_is_hit] at hf
      have hcond := of_decide_eq_false (t1 ▸ hf)
      rw [generate_data_search_indices]
      exact (t3 hcond).1

/-- Witness for C10 at the small consistent configuration. -/
theorem parallel_arrays_zero_padding_witness :
    0 < smallCfg.N ∧
    (generate_data smallCfg).remove_indices.length =
      (generate_data smallCfg).remove_is_hit.length :=
  ⟨by decide, (parallel_arrays_zero_padding smallCfg (by decide)).1.2.1⟩
